import Mathlib

/-!
Verification of the version-gated test-selection engine of the psycopg
test suite, together with the `PyFormat` wire-format mapping.

The development shallowly embeds:
* `psycopg/_enums.py` — the `PyFormat` enum and the static two-way
  tables `_py2pg` / `_pg2py` (Python `dict` lookup is modelled as an
  association-list lookup returning `Option`, a failed lookup — Python
  `KeyError` — being `none`);
* `tests/fix_crdb.py` — `check_crdb_version`, `crdb_skip_message` and
  the static `_crdb_reasons` table;
* the `VersionCheck` predicate engine (expression parser, version-tuple
  comparison and skip decision), whose source file is not among the
  sources available here and is therefore modelled from the
  specification (each such definition carries a doc comment starting
  with `Modelled from the spec:`).
-/

namespace Psycopg

/-- Modelled from the spec: the libpq wire-format enum `pq.Format`,
whose defining module is not among the available sources; the mapping
tables in `_enums.py` use exactly its two members `TEXT` and `BINARY`. -/
inductive Format where
  | TEXT
  | BINARY
deriving DecidableEq, Repr

/-- The `PyFormat` enum of `psycopg/_enums.py`: format wanted for a
query argument.  The underlying string values are kept as `value`. -/
inductive PyFormat where
  | AUTO
  | TEXT
  | BINARY
deriving DecidableEq, Repr

/-- The string value carried by each `PyFormat` member
(`"s"`, `"t"`, `"b"`). -/
def PyFormat.value : PyFormat → String
  | .AUTO => "s"
  | .TEXT => "t"
  | .BINARY => "b"

/-- The `_py2pg` table of `_enums.py`: `PyFormat` → wire format.
`AUTO` has no entry. -/
def _py2pg : List (PyFormat × Format) :=
  [(PyFormat.TEXT, Format.TEXT), (PyFormat.BINARY, Format.BINARY)]

/-- The `_pg2py` table of `_enums.py`: wire format → `PyFormat`. -/
def _pg2py : List (Format × PyFormat) :=
  [(Format.TEXT, PyFormat.TEXT), (Format.BINARY, PyFormat.BINARY)]

/-- `PyFormat.from_pq`: dictionary lookup in `_pg2py`; `none` models a
Python `KeyError`. -/
def PyFormat.from_pq (fmt : Format) : Option PyFormat :=
  _pg2py.lookup fmt

/-- `PyFormat.as_pq`: dictionary lookup in `_py2pg`; `none` models a
Python `KeyError`. -/
def PyFormat.as_pq (fmt : PyFormat) : Option Format :=
  _py2pg.lookup fmt

/-- The static `_crdb_reasons` table of `tests/fix_crdb.py`: mapping
from reason description to ticket number. -/
def _crdb_reasons : List (String × Nat) :=
  [("2-phase commit", 22329),
   ("backend pid", 35897),
   ("batch statements", 44803),
   ("binary decimal", 82492),
   ("cancel", 41335),
   ("cast adds tz", 51692),
   ("cidr", 18846),
   ("composite", 27792),
   ("copy canceled", 81559),
   ("copy", 41608),
   ("cursor with hold", 77101),
   ("deferrable", 48307),
   ("do", 17511),
   ("encoding", 35882),
   ("geometric types", 21286),
   ("hstore", 41284),
   ("infinity date", 41564),
   ("interval style", 35807),
   ("json array", 23468),
   ("large objects", 243),
   ("negative interval", 81577),
   ("nested array", 32552),
   ("notify", 41522),
   ("password_encryption", 42519),
   ("pg_terminate_backend", 35897),
   ("range", 41282),
   ("severity_nonlocalized", 81794),
   ("scroll cursor", 77102),
   ("server-side cursor", 41412),
   ("stored procedure", 1751)]

/-- `crdb_skip_message` of `tests/fix_crdb.py`: enrich a reason with the
issue-tracker URL when the reason is a key of `_crdb_reasons`.  A Python
falsy reason (`None` or the empty string) yields the empty message. -/
def crdb_skip_message (reason : Option String) : String :=
  match reason with
  | none => ""
  | some r =>
    if r = "" then ""
    else
      match _crdb_reasons.lookup r with
      | some n =>
          r ++ " (" ++ "https://github.com/cockroachdb/cockroach/issues/"
            ++ Nat.repr n ++ ")"
      | none => r

/-- Modelled from the spec: whitespace tokenizer used by the missing
`VersionCheck.parse` (spec §4.1: "whitespace between tokens is
insignificant").  Splits a character list into maximal non-whitespace
words; `acc` is the current word, reversed. -/
def wordsAux : List Char → List Char → List String
  | [], acc => if acc.isEmpty then [] else [String.mk acc.reverse]
  | c :: cs, acc =>
    if c.isWhitespace then
      if acc.isEmpty then wordsAux cs []
      else String.mk acc.reverse :: wordsAux cs []
    else wordsAux cs (c :: acc)

/-- Modelled from the spec: split an expression into its whitespace
separated tokens. -/
def tokenize (s : String) : List String :=
  wordsAux s.data []

/-- Modelled from the spec: split a version literal on dots (spec §3:
"a dotted version string"); `acc` is the current part, reversed. -/
def splitDotsAux : List Char → List Char → List (List Char)
  | [], acc => [acc.reverse]
  | c :: cs, acc =>
    if c = '.' then acc.reverse :: splitDotsAux cs []
    else splitDotsAux cs (c :: acc)

/-- Numeric value of a decimal digit character. -/
def digitVal (c : Char) : Nat :=
  c.toNat - '0'.toNat

/-- Decimal value of a digit string. -/
def digitsToNat (cs : List Char) : Nat :=
  cs.foldl (fun n c => n * 10 + digitVal c) 0

/-- Modelled from the spec: parse one dot-separated component of a
version literal — a non-empty run of decimal digits (spec §4.1:
"non-negative integers separated by dots"). -/
def parsePart (cs : List Char) : Option Nat :=
  if cs.isEmpty then none
  else if cs.all Char.isDigit then some (digitsToNat cs) else none

/-- Modelled from the spec: parse every component of a version literal;
fails as soon as one component fails. -/
def parseParts : List (List Char) → Option (List Nat)
  | [] => some []
  | p :: ps =>
    match parsePart p, parseParts ps with
    | some n, some ns => some (n :: ns)
    | _, _ => none

/-- Modelled from the spec: parse a dotted version literal into a
version tuple (`"21.2.10"` → `[21, 2, 10]`). -/
def parseVersionLiteral (s : String) : Option (List Nat) :=
  parseParts (splitDotsAux s.data [])

/-- The qualifier of a predicate (spec §3): `Only` — the test applies
exclusively to the named flavor — or `Skip` — the test must be excluded
for the named flavor. -/
inductive Qualifier where
  | Only
  | Skip
deriving DecidableEq, Repr

/-- A comparison operator of the expression language (spec §3):
`<`, `<=`, `>`, `>=`, `==`, `!=`. -/
inductive Op where
  | lt
  | le
  | gt
  | ge
  | eq
  | ne
deriving DecidableEq, Repr

/-- A parsed predicate (spec §3): a qualifier plus an optional
comparison clause.  The invariant "operator and boundary are both
present or both absent" is captured by pairing them under one
`Option`. -/
structure ParsedPredicate where
  qualifier : Qualifier
  comparison : Option (Op × List Nat)
deriving DecidableEq, Repr

/-- The error raised on expressions that break the grammar
(spec §4.1/§7). -/
inductive MalformedExpressionError where
  | malformed
deriving DecidableEq, Repr

/-- Modelled from the spec: recognize the qualifier token, which must be
exactly `only` or `skip` (case-sensitive, spec §4.1). -/
def parseQualifier (s : String) : Option Qualifier :=
  if s = "only" then some Qualifier.Only
  else if s = "skip" then some Qualifier.Skip
  else none

/-- Modelled from the spec: recognize one of the six comparison
operators (spec §6). -/
def parseOperator (s : String) : Option Op :=
  if s = "<" then some Op.lt
  else if s = "<=" then some Op.le
  else if s = ">" then some Op.gt
  else if s = ">=" then some Op.ge
  else if s = "==" then some Op.eq
  else if s = "!=" then some Op.ne
  else none

/-- A `VersionCheck` (spec §3): a parsed predicate plus the name of the
flavor the predicate talks about. -/
structure VersionCheck where
  predicate : ParsedPredicate
  whose : String
deriving DecidableEq, Repr

/-- Modelled from the spec: `VersionCheck.parse` (spec §4.1), whose
source file is not among the available sources.  The empty expression
defaults to qualifier `Only` with no comparison; a lone token must be a
qualifier; a three-token expression is qualifier, operator and dotted
version literal; anything else is a `MalformedExpressionError`. -/
def VersionCheck.parse (expr : String) :
    Except MalformedExpressionError ParsedPredicate :=
  match tokenize expr with
  | [] => Except.ok ⟨Qualifier.Only, none⟩
  | [q] =>
    match parseQualifier q with
    | some qual => Except.ok ⟨qual, none⟩
    | none => Except.error MalformedExpressionError.malformed
  | [q, op, v] =>
    match parseQualifier q, parseOperator op, parseVersionLiteral v with
    | some qual, some o, some ver => Except.ok ⟨qual, some (o, ver)⟩
    | _, _, _ => Except.error MalformedExpressionError.malformed
  | _ => Except.error MalformedExpressionError.malformed

/-- Pad a version tuple with trailing zeros up to length `n`
(spec §4.2). -/
def padTo (v : List Nat) (n : Nat) : List Nat :=
  v ++ List.replicate (n - v.length) 0

/-- Lexicographic comparison of two integer tuples. -/
def lexCompare : List Nat → List Nat → Ordering
  | [], [] => Ordering.eq
  | [], _ :: _ => Ordering.lt
  | _ :: _, [] => Ordering.gt
  | a :: as, b :: bs =>
    match compare a b with
    | Ordering.eq => lexCompare as bs
    | o => o

/-- Modelled from the spec: version-tuple comparison (spec §4.2):
zero-pad both tuples to equal length, then compare lexicographically. -/
def versionCompare (a b : List Nat) : Ordering :=
  lexCompare (padTo a (max a.length b.length)) (padTo b (max a.length b.length))

/-- Interpretation of a comparison operator over the `Ordering` of the
actual version against the boundary. -/
def Op.holds : Op → Ordering → Bool
  | .lt, o => o == Ordering.lt
  | .le, o => o != Ordering.gt
  | .gt, o => o == Ordering.gt
  | .ge, o => o != Ordering.lt
  | .eq, o => o == Ordering.eq
  | .ne, o => o != Ordering.eq

/-- Modelled from the spec: "comparison-match" (spec §4.3) — true when
no operator is present (wildcard), or when the actual version is
unavailable while a comparison is required (conservative policy), or
when the operator/boundary comparison against the actual version
holds. -/
def matchesComparison (p : ParsedPredicate) (actual : Option (List Nat)) : Bool :=
  match p.comparison with
  | none => true
  | some (op, bound) =>
    match actual with
    | none => true
    | some v => op.holds (versionCompare v bound)

/-- Modelled from the spec: `VersionCheck.get_skip_message` (spec §4.3
decision table), whose source file is not among the available sources.
`isFlavor` is the implicitly supplied "server is the named flavor"
context; `actual` is the actual version, `none` when unavailable. -/
def VersionCheck.get_skip_message (vc : VersionCheck) (isFlavor : Bool)
    (actual : Option (List Nat)) : Option String :=
  match vc.predicate.qualifier, isFlavor with
  | Qualifier.Only, false => some ("test is specific to " ++ vc.whose)
  | Qualifier.Only, true =>
    if matchesComparison vc.predicate actual then none
    else some (vc.whose ++ " version mismatch")
  | Qualifier.Skip, false => none
  | Qualifier.Skip, true =>
    if matchesComparison vc.predicate actual then
      some ("not supported on " ++ vc.whose ++ " matching this predicate")
    else none

/-- The facts about the running server that `check_crdb_version`
consumes: whether it is the named flavor (CockroachDB), and its
reported version when available. -/
structure ServerInfo where
  isFlavor : Bool
  version : Option (List Nat)
deriving DecidableEq, Repr

/-- A test marker: positional arguments and keyword arguments (a
keyword may carry Python `None`, modelled as `none`). -/
structure Mark where
  args : List String
  kwargs : List (String × Option String)
deriving DecidableEq, Repr

/-- How `check_crdb_version` fails: a failed `assert`, or the
`MalformedExpressionError` propagated from `VersionCheck.parse`. -/
inductive CheckError where
  | assertionFailed
  | malformedExpression
deriving DecidableEq, Repr

/-- `check_crdb_version` of `tests/fix_crdb.py`: assert marker shape,
parse the expression (defaulting to `"only"`), set `whose`, evaluate,
and append the enriched reason to a resulting skip message. -/
def check_crdb_version (got : ServerInfo) (mark : Mark) :
    Except CheckError (Option String) :=
  if mark.args.length > 1 then Except.error CheckError.assertionFailed
  else if !(mark.kwargs.all (fun kv => kv.1 == "reason")) then
    Except.error CheckError.assertionFailed
  else
    match VersionCheck.parse (mark.args.headD "only") with
    | Except.error _ => Except.error CheckError.malformedExpression
    | Except.ok predicate =>
      let pred : VersionCheck := ⟨predicate, "CockroachDB"⟩
      match pred.get_skip_message got.isFlavor got.version with
      | none => Except.ok none
      | some m =>
        if m = "" then Except.ok none
        else
          let reason := crdb_skip_message ((mark.kwargs.lookup "reason").join)
          if reason = "" then Except.ok (some m)
          else Except.ok (some (m ++ ": " ++ reason))

/-- A qualifier token of the grammar (spec §4.1): exactly `only` or
`skip`. -/
def QualifierToken (s : String) : Prop :=
  s = "only" ∨ s = "skip"

/-- An operator token of the grammar (spec §6): one of the six
recognized symbols. -/
def OperatorToken (s : String) : Prop :=
  s = "<" ∨ s = "<=" ∨ s = ">" ∨ s = ">=" ∨ s = "==" ∨ s = "!="

/-- A version-literal token of the grammar (spec §4.1): non-negative
integers separated by dots, i.e. every dot-separated component is a
non-empty run of decimal digits. -/
def VersionLiteralToken (s : String) : Prop :=
  ∀ p ∈ splitDotsAux s.data [], p ≠ [] ∧ ∀ c ∈ p, c.isDigit = true

/-- The grammar of expressions (spec §4.1/§6), stated declaratively
over the token list: empty, a lone qualifier, or qualifier + operator +
version literal. -/
def GrammarOK (expr : String) : Prop :=
  match tokenize expr with
  | [] => True
  | [q] => QualifierToken q
  | [q, op, v] => QualifierToken q ∧ OperatorToken op ∧ VersionLiteralToken v
  | _ => False

theorem padTo_length (v : List Nat) : padTo v v.length = v := by
  simp [padTo]

theorem padTo_add (v : List Nat) (k : Nat) :
    padTo v (v.length + k) = v ++ List.replicate k 0 := by
  simp [padTo]

theorem lexCompare_eq_iff (a b : List Nat) :
    lexCompare a b = Ordering.eq ↔ a = b := by
  induction a generalizing b with
  | nil => cases b <;> simp [lexCompare]
  | cons x xs ih =>
    cases b with
    | nil => simp [lexCompare]
    | cons y ys =>
      simp only [lexCompare]
      cases h : compare x y with
      | lt =>
        have hne : x ≠ y := Nat.ne_of_lt (Nat.compare_eq_lt.mp h)
        simp [hne]
      | eq =>
        obtain rfl : x = y := Nat.compare_eq_eq.mp h
        simp [ih]
      | gt =>
        have hne : x ≠ y := (Nat.ne_of_lt (Nat.compare_eq_gt.mp h)).symm
        simp [hne]

theorem lexCompare_lt_iff (a b : List Nat) :
    lexCompare a b = Ordering.lt ↔ List.Lex (· < ·) a b := by
  induction a generalizing b with
  | nil =>
    cases b with
    | nil => simp [lexCompare]
    | cons y ys =>
      simp only [lexCompare]
      exact ⟨fun _ => List.Lex.nil, fun _ => trivial⟩
  | cons x xs ih =>
    cases b with
    | nil => simp [lexCompare]
    | cons y ys =>
      simp only [lexCompare]
      cases h : compare x y with
      | lt =>
        have hxy := Nat.compare_eq_lt.mp h
        exact ⟨fun _ => List.Lex.rel hxy, fun _ => rfl⟩
      | eq =>
        obtain rfl : x = y := Nat.compare_eq_eq.mp h
        rw [List.Lex.cons_iff]
        exact ih ys
      | gt =>
        have hyx := Nat.compare_eq_gt.mp h
        constructor
        · intro habs
          exact absurd habs (by simp)
        · intro hlex
          cases hlex with
          | cons _ => exact absurd rfl (Nat.ne_of_lt hyx).symm
          | rel hr => exact absurd hr (Nat.lt_asymm hyx)

/-- C3: two version tuples parsed from dotted strings of different
length but equal numeric content (one being the other plus trailing
zeros) compare equal, and in general comparison pads the shorter tuple
with trailing zeros and orders lexicographically (the strict order
coincides with `List.Lex (· < ·)` on the padded tuples, equality with
tuple equality of the padded tuples). -/
theorem version_padding_lex :
    (∀ (s1 s2 : String) (a b : List Nat) (k : Nat),
      parseVersionLiteral s1 = some a → parseVersionLiteral s2 = some b →
      b = a ++ List.replicate k 0 →
      versionCompare a b = Ordering.eq ∧ versionCompare b a = Ordering.eq) ∧
    (∀ a b : List Nat,
      versionCompare a b = Ordering.eq ↔
        padTo a (max a.length b.length) = padTo b (max a.length b.length)) ∧
    (∀ a b : List Nat,
      versionCompare a b = Ordering.lt ↔
        List.Lex (· < ·) (padTo a (max a.length b.length))
          (padTo b (max a.length b.length))) := by
  refine ⟨?_, ?_, ?_⟩
  · intro s1 s2 a b k _ _ hb
    subst hb
    have hblen : (a ++ List.replicate k 0).length = a.length + k := by
      simp
    constructor
    · have hmax : max a.length (a ++ List.replicate k 0).length = a.length + k := by
        rw [hblen]; exact Nat.max_eq_right (Nat.le_add_right _ _)
      rw [versionCompare, hmax, padTo_add, ← hblen, padTo_length,
        lexCompare_eq_iff]
    · have hmax : max (a ++ List.replicate k 0).length a.length = a.length + k := by
        rw [hblen]; exact Nat.max_eq_left (Nat.le_add_right _ _)
      rw [versionCompare, hmax, padTo_add, ← hblen, padTo_length,
        lexCompare_eq_iff]
  · intro a b
    rw [versionCompare, lexCompare_eq_iff]
  · intro a b
    rw [versionCompare, lexCompare_lt_iff]

/-- Witness for C3 at `"21.2"` versus `"21.2.0"`. -/
theorem version_padding_lex_witness :
    versionCompare [21, 2] [21, 2, 0] = Ordering.eq ∧
    versionCompare [21, 2, 0] [21, 2] = Ordering.eq :=
  version_padding_lex.1 "21.2" "21.2.0" [21, 2] [21, 2, 0] 1 rfl rfl rfl

/-- C9: the format-enum mapping round-trips: for every `PyFormat` other
than `AUTO`, `from_pq (as_pq f) = f`, and for every wire format
`g ∈ {TEXT, BINARY}`, `as_pq (from_pq g) = g`. -/
theorem pyformat_roundtrip :
    (∀ f : PyFormat, f ≠ PyFormat.AUTO →
      (PyFormat.as_pq f).bind PyFormat.from_pq = some f) ∧
    (∀ g : Format,
      (PyFormat.from_pq g).bind PyFormat.as_pq = some g) := by
  constructor
  · intro f hf
    cases f
    · exact absurd rfl hf
    · rfl
    · rfl
  · intro g
    cases g <;> rfl

/-- Witness for C9 at the concrete input `TEXT` (both directions). -/
theorem pyformat_roundtrip_witness :
    (PyFormat.as_pq PyFormat.TEXT).bind PyFormat.from_pq = some PyFormat.TEXT ∧
    (PyFormat.from_pq Format.TEXT).bind PyFormat.as_pq = some Format.TEXT :=
  ⟨pyformat_roundtrip.1 PyFormat.TEXT (by decide), pyformat_roundtrip.2 Format.TEXT⟩

/-- C10: `as_pq` is not total on `PyFormat`: applied to `AUTO` the
`_py2pg` lookup fails (Python `KeyError`, here `none`), since `AUTO`
has no entry in the table. -/
theorem as_pq_auto_keyerror :
    PyFormat.as_pq PyFormat.AUTO = none ∧
    _py2pg.lookup PyFormat.AUTO = none := by
  constructor <;> rfl

/-- C6: enrichment returns `""` on `None`/empty reasons; on a reason
that is a key of `_crdb_reasons` it returns
`"<reason> (https://github.com/cockroachdb/cockroach/issues/<number>)"`
(in particular `"encoding"` maps to issue 35882); on any non-key reason
it returns the reason unchanged (exact, case-sensitive lookup).  It is
a total function, so it never raises. -/
theorem crdb_skip_message_spec :
    crdb_skip_message none = "" ∧
    crdb_skip_message (some "") = "" ∧
    (∀ r n, _crdb_reasons.lookup r = some n → r ≠ "" →
      crdb_skip_message (some r) =
        r ++ " (" ++ "https://github.com/cockroachdb/cockroach/issues/"
          ++ Nat.repr n ++ ")") ∧
    (∀ r, _crdb_reasons.lookup r = none → crdb_skip_message (some r) = r) ∧
    crdb_skip_message (some "encoding") =
      "encoding (https://github.com/cockroachdb/cockroach/issues/35882)" := by
  refine ⟨rfl, rfl, ?_, ?_, by decide⟩
  · intro r n hn hr
    simp [crdb_skip_message, hr, hn]
  · intro r hr
    by_cases h : r = "" <;> simp [crdb_skip_message, h, hr]

/-- Witness for C6 at the concrete reasons `"encoding"` (a key of the
table) and `"not-a-real-reason"` (not a key). -/
theorem crdb_skip_message_spec_witness :
    crdb_skip_message (some "encoding") =
      "encoding" ++ " (" ++ "https://github.com/cockroachdb/cockroach/issues/"
        ++ Nat.repr 35882 ++ ")" ∧
    crdb_skip_message (some "not-a-real-reason") = "not-a-real-reason" :=
  ⟨crdb_skip_message_spec.2.2.1 "encoding" 35882 (by decide) (by decide),
   crdb_skip_message_spec.2.2.2.1 "not-a-real-reason" (by decide)⟩

/-- C1: every predicate parsed from an expression with qualifier `Only`
(with or without a comparison clause), evaluated when the server is not
the named flavor, yields a skip message, for every actual version. -/
theorem only_not_flavor_skips :
    ∀ (expr : String) (pred : ParsedPredicate) (whose : String)
      (actual : Option (List Nat)),
      VersionCheck.parse expr = Except.ok pred →
      pred.qualifier = Qualifier.Only →
      (VersionCheck.get_skip_message ⟨pred, whose⟩ false actual).isSome = true := by
  intro expr pred whose actual hparse hq
  simp [VersionCheck.get_skip_message, hq]

/-- Witness for C1 at `parse "only >= 21.1"` with actual version
`22.0`. -/
theorem only_not_flavor_skips_witness :
    VersionCheck.parse "only >= 21.1" =
      Except.ok ⟨Qualifier.Only, some (Op.ge, [21, 1])⟩ ∧
    (VersionCheck.get_skip_message
      ⟨⟨Qualifier.Only, some (Op.ge, [21, 1])⟩, "CockroachDB"⟩ false
      (some [22, 0])).isSome = true :=
  ⟨rfl,
   only_not_flavor_skips "only >= 21.1" ⟨Qualifier.Only, some (Op.ge, [21, 1])⟩
     "CockroachDB" (some [22, 0]) rfl rfl⟩

/-- C2: the predicate parsed from `"skip < 22"`, evaluated on a server
that is the named flavor, yields a skip message at actual version
`21.9` and no skip message at actual version `22.0`. -/
theorem skip_lt_22_eval :
    ∃ pred, VersionCheck.parse "skip < 22" = Except.ok pred ∧
      (VersionCheck.get_skip_message ⟨pred, "CockroachDB"⟩ true
        (some [21, 9])).isSome = true ∧
      VersionCheck.get_skip_message ⟨pred, "CockroachDB"⟩ true
        (some [22, 0]) = none :=
  ⟨⟨Qualifier.Skip, some (Op.lt, [22])⟩, rfl, rfl, rfl⟩

/-- C4: a marker with no positional argument is checked exactly as one
whose expression is `"only"`, and `parse ""` and `parse "only"` produce
the same predicate: qualifier `Only`, no operator, no boundary. -/
theorem default_expression_only :
    (∀ (kwargs : List (String × Option String)) (got : ServerInfo),
      check_crdb_version got ⟨[], kwargs⟩ =
        check_crdb_version got ⟨["only"], kwargs⟩) ∧
    VersionCheck.parse "" = Except.ok ⟨Qualifier.Only, none⟩ ∧
    VersionCheck.parse "only" = Except.ok ⟨Qualifier.Only, none⟩ :=
  ⟨fun _ _ => rfl, rfl, rfl⟩

theorem parseQualifier_none_iff (s : String) :
    parseQualifier s = none ↔ ¬ QualifierToken s := by
  unfold parseQualifier QualifierToken
  split_ifs with ha hb <;> simp_all

theorem parseQualifier_some_token (s : String) (q : Qualifier) :
    parseQualifier s = some q → QualifierToken s := by
  intro h
  unfold parseQualifier at h
  unfold QualifierToken
  split_ifs at h <;> simp_all

theorem parseOperator_none_iff (s : String) :
    parseOperator s = none ↔ ¬ OperatorToken s := by
  unfold parseOperator OperatorToken
  split_ifs with h1 h2 h3 h4 h5 h6 <;> simp_all

theorem parseOperator_some_token (s : String) (o : Op) :
    parseOperator s = some o → OperatorToken s := by
  intro h
  unfold parseOperator at h
  unfold OperatorToken
  split_ifs at h <;> simp_all

theorem parsePart_isSome_iff (p : List Char) :
    (parsePart p).isSome = true ↔ (p ≠ [] ∧ ∀ c ∈ p, c.isDigit = true) := by
  unfold parsePart
  split_ifs with h1 h2 <;>
    simp_all [List.isEmpty_iff]

theorem parseParts_isSome_iff (ps : List (List Char)) :
    (parseParts ps).isSome = true ↔ ∀ p ∈ ps, (parsePart p).isSome = true := by
  induction ps with
  | nil => simp [parseParts]
  | cons p ps ih =>
    simp only [parseParts]
    cases h1 : parsePart p <;> cases h2 : parseParts ps <;>
      simp_all [List.forall_mem_cons]

theorem parseVersionLiteral_none_iff (s : String) :
    parseVersionLiteral s = none ↔ ¬ VersionLiteralToken s := by
  have h := parseParts_isSome_iff (splitDotsAux s.data [])
  unfold parseVersionLiteral VersionLiteralToken
  constructor
  · intro hn hV
    have hs : (parseParts (splitDotsAux s.data [])).isSome = true :=
      h.mpr fun p hp => (parsePart_isSome_iff p).mpr (hV p hp)
    rw [hn] at hs
    simp at hs
  · intro hV
    cases hx : parseParts (splitDotsAux s.data []) with
    | none => rfl
    | some l =>
      exfalso
      apply hV
      intro p hp
      exact (parsePart_isSome_iff p).mp (h.mp (by rw [hx]; rfl) p hp)

theorem parseVersionLiteral_some_token (s : String) (v : List Nat) :
    parseVersionLiteral s = some v → VersionLiteralToken s := by
  intro hv
  unfold VersionLiteralToken
  intro p hp
  exact (parsePart_isSome_iff p).mp
    ((parseParts_isSome_iff (splitDotsAux s.data [])).mp
      (by unfold parseVersionLiteral at hv; rw [hv]; rfl) p hp)

/-- C5: `parse` fails with `MalformedExpressionError` — and never
silently defaults — exactly when the expression breaks the grammar:
the token list is not empty, a lone qualifier token that is exactly
`only` or `skip`, or a qualifier token followed by one of the six
operators and a version literal of non-negative integers separated by
dots. -/
theorem parse_malformed_iff :
    ∀ expr : String,
      (∃ e, VersionCheck.parse expr = Except.error e) ↔ ¬ GrammarOK expr := by
  intro expr
  unfold VersionCheck.parse GrammarOK
  cases hts : tokenize expr with
  | nil => simp
  | cons q rest =>
    cases rest with
    | nil =>
      show (∃ e, (match parseQualifier q with
          | some qual => Except.ok (⟨qual, none⟩ : ParsedPredicate)
          | none => Except.error MalformedExpressionError.malformed) =
            Except.error e) ↔ ¬ QualifierToken q
      cases hq : parseQualifier q with
      | none =>
        exact ⟨fun _ => (parseQualifier_none_iff q).mp hq,
          fun _ => ⟨MalformedExpressionError.malformed, rfl⟩⟩
      | some qual =>
        have hQT : QualifierToken q := parseQualifier_some_token q qual hq
        refine ⟨fun h => ?_, fun hn => absurd hQT hn⟩
        obtain ⟨e, he⟩ := h
        exact Except.noConfusion he
    | cons op rest2 =>
      cases rest2 with
      | nil =>
        exact ⟨fun _ => not_false, fun _ => ⟨MalformedExpressionError.malformed, rfl⟩⟩
      | cons v rest3 =>
        cases rest3 with
        | cons w rest4 =>
          exact ⟨fun _ => not_false, fun _ => ⟨MalformedExpressionError.malformed, rfl⟩⟩
        | nil =>
          show (∃ e, (match parseQualifier q, parseOperator op, parseVersionLiteral v with
              | some qual, some o, some ver =>
                Except.ok (⟨qual, some (o, ver)⟩ : ParsedPredicate)
              | _, _, _ => Except.error MalformedExpressionError.malformed) =
                Except.error e) ↔
            ¬ (QualifierToken q ∧ OperatorToken op ∧ VersionLiteralToken v)
          cases hq : parseQualifier q with
          | none =>
            exact ⟨fun _ hG => (parseQualifier_none_iff q).mp hq hG.1,
              fun _ => ⟨MalformedExpressionError.malformed, rfl⟩⟩
          | some qual =>
            cases hop : parseOperator op with
            | none =>
              exact ⟨fun _ hG => (parseOperator_none_iff op).mp hop hG.2.1,
                fun _ => ⟨MalformedExpressionError.malformed, rfl⟩⟩
            | some o =>
              cases hv : parseVersionLiteral v with
              | none =>
                exact ⟨fun _ hG => (parseVersionLiteral_none_iff v).mp hv hG.2.2,
                  fun _ => ⟨MalformedExpressionError.malformed, rfl⟩⟩
              | some ver =>
                have hQT : QualifierToken q := parseQualifier_some_token q qual hq
                have hOT : OperatorToken op := parseOperator_some_token op o hop
                have hVT : VersionLiteralToken v :=
                  parseVersionLiteral_some_token v ver hv
                refine ⟨fun h => ?_, fun hn => absurd ⟨hQT, hOT, hVT⟩ hn⟩
                obtain ⟨e, he⟩ := h
                exact Except.noConfusion he

/-- C7: a marker with more than one positional argument, or with a
keyword argument other than `reason`, makes the binding fail with the
assertion-style error — whatever the expression and server are, so in
particular before any predicate parsing or evaluation occurs. -/
theorem marker_misuse_assertion :
    ∀ (got : ServerInfo) (mark : Mark),
      (mark.args.length > 1 ∨ ¬ (∀ kv ∈ mark.kwargs, kv.1 = "reason")) →
      check_crdb_version got mark = Except.error CheckError.assertionFailed := by
  intro got mark h
  rcases h with h | h
  · unfold check_crdb_version
    rw [if_pos h]
  · have hall : mark.kwargs.all (fun kv => kv.1 == "reason") = false := by
      by_contra hc
      rw [Bool.not_eq_false, List.all_eq_true] at hc
      exact h fun kv hkv => by simpa using hc kv hkv
    unfold check_crdb_version
    split_ifs with hA hB
    · rfl
    · rfl
    · exact absurd (by simp [hall]) hB

/-- Witness for C7: a marker with two positional arguments and a
malformed second argument still yields the assertion error. -/
theorem marker_misuse_assertion_witness :
    check_crdb_version ⟨true, some [22]⟩ ⟨["only", "maybe >= 1"], []⟩ =
      Except.error CheckError.assertionFailed :=
  marker_misuse_assertion ⟨true, some [22]⟩ ⟨["only", "maybe >= 1"], []⟩
    (Or.inl (by decide))

theorem get_skip_message_ne_empty (pred : ParsedPredicate) (f : Bool)
    (a : Option (List Nat)) (m : String) :
    VersionCheck.get_skip_message ⟨pred, "CockroachDB"⟩ f a = some m →
    m ≠ "" := by
  intro h
  obtain ⟨q, c⟩ := pred
  cases q <;> cases f <;> simp only [VersionCheck.get_skip_message] at h <;>
    first
      | exact Option.noConfusion h
      | (obtain rfl := Option.some.inj h; decide)
      | (split at h <;>
          first
            | exact Option.noConfusion h
            | (obtain rfl := Option.some.inj h; decide))

/-- C8: for a well-formed marker whose expression parses, the binding
returns `none` (no skip) exactly when `get_skip_message` yields no
message; otherwise it returns a non-empty string equal to the skip
message, extended with `": <enriched reason>"` when the enriched reason
is non-empty and unchanged when the enriched reason is empty. -/
theorem binding_skip_decision :
    ∀ (got : ServerInfo) (mark : Mark) (pred : ParsedPredicate),
      mark.args.length ≤ 1 →
      (∀ kv ∈ mark.kwargs, kv.1 = "reason") →
      VersionCheck.parse (mark.args.headD "only") = Except.ok pred →
      (check_crdb_version got mark = Except.ok none ↔
        VersionCheck.get_skip_message ⟨pred, "CockroachDB"⟩
          got.isFlavor got.version = none) ∧
      (∀ m, VersionCheck.get_skip_message ⟨pred, "CockroachDB"⟩
          got.isFlavor got.version = some m →
        check_crdb_version got mark = Except.ok (some
          (if crdb_skip_message ((mark.kwargs.lookup "reason").join) = ""
           then m
           else m ++ ": " ++
             crdb_skip_message ((mark.kwargs.lookup "reason").join))) ∧
        (if crdb_skip_message ((mark.kwargs.lookup "reason").join) = ""
         then m
         else m ++ ": " ++
           crdb_skip_message ((mark.kwargs.lookup "reason").join)) ≠ "") := by
  intro got mark pred h1 h2 hparse
  have hlen : ¬ (mark.args.length > 1) := by omega
  have hall : mark.kwargs.all (fun kv => kv.1 == "reason") = true :=
    List.all_eq_true.mpr fun kv hkv => by simpa using h2 kv hkv
  have hcheck0 : check_crdb_version got mark =
      match VersionCheck.get_skip_message ⟨pred, "CockroachDB"⟩
          got.isFlavor got.version with
      | none => Except.ok none
      | some m =>
        if m = "" then Except.ok none
        else
          if crdb_skip_message ((mark.kwargs.lookup "reason").join) = ""
          then Except.ok (some m)
          else Except.ok (some (m ++ ": " ++
            crdb_skip_message ((mark.kwargs.lookup "reason").join))) := by
    unfold check_crdb_version
    rw [if_neg hlen, hall, hparse]
    rfl
  cases hmsg : VersionCheck.get_skip_message ⟨pred, "CockroachDB"⟩
      got.isFlavor got.version with
  | none =>
    rw [hmsg] at hcheck0
    exact ⟨⟨fun _ => rfl, fun _ => hcheck0⟩, fun m hm => by simp at hm⟩
  | some m =>
    have hm : m ≠ "" := get_skip_message_ne_empty pred got.isFlavor got.version m hmsg
    rw [hmsg] at hcheck0
    have hc : check_crdb_version got mark =
        (if crdb_skip_message ((mark.kwargs.lookup "reason").join) = ""
         then Except.ok (some m)
         else Except.ok (some (m ++ ": " ++
           crdb_skip_message ((mark.kwargs.lookup "reason").join)))) := by
      rw [hcheck0]
      show (if m = "" then Except.ok none
        else
          if crdb_skip_message ((mark.kwargs.lookup "reason").join) = ""
          then Except.ok (some m)
          else Except.ok (some (m ++ ": " ++
            crdb_skip_message ((mark.kwargs.lookup "reason").join)))) = _
      rw [if_neg hm]
    constructor
    · constructor
      · intro hok
        rw [hc] at hok
        split at hok <;> simp at hok
      · intro hnone
        simp at hnone
    · intro m' hm'
      obtain rfl := Option.some.inj hm'
      constructor
      · rw [hc]
        by_cases hr : crdb_skip_message ((mark.kwargs.lookup "reason").join) = ""
        · rw [if_pos hr, if_pos hr]
        · rw [if_neg hr, if_neg hr]
      · by_cases hr : crdb_skip_message ((mark.kwargs.lookup "reason").join) = ""
        · rw [if_pos hr]
          exact hm
        · rw [if_neg hr]
          intro hcontra
          have hlenc := congrArg String.length hcontra
          simp only [String.length_append] at hlenc
          have h2c : (": " : String).length = 2 := by decide
          have h0c : ("" : String).length = 0 := by decide
          rw [h2c, h0c] at hlenc
          omega

/-- Witness for C8 at a marker `crdb("only")` on a server that is not
the named flavor. -/
theorem binding_skip_decision_witness :
    check_crdb_version ⟨false, none⟩ ⟨["only"], []⟩ = Except.ok none ↔
      VersionCheck.get_skip_message ⟨⟨Qualifier.Only, none⟩, "CockroachDB"⟩
        false none = none :=
  (binding_skip_decision ⟨false, none⟩ ⟨["only"], []⟩ ⟨Qualifier.Only, none⟩
    (by decide) (by simp) rfl).1

end Psycopg
